import Mathlib

/-!
Verification of the daily_stock_analysis core against its specification.

The Python source is shallowly embedded: each Python function used by a
claim becomes a Lean definition over explicit state; time is passed as an
explicit rational parameter; Python `Optional` becomes `Option`.
-/

namespace StockAnalysis

/-! ### Circuit breaker (`data_provider/realtime_types.py`, class `CircuitBreaker`) -/

/-- State constants of `CircuitBreaker`: CLOSED / OPEN / HALF_OPEN. -/
inductive BreakerState where
  | closed
  | open
  | halfOpen
  deriving DecidableEq, Repr

/-- The per-source record stored in `CircuitBreaker._states`:
`{state, failures, last_failure_time, half_open_calls}`. -/
structure ResourceState where
  state : BreakerState
  failures : Nat
  last_failure_time : ℚ
  half_open_calls : Nat
  deriving DecidableEq, Repr

/-- The `CircuitBreaker` object: constructor parameters plus the
`_states` dict, modelled as an association list keyed by source name. -/
structure CircuitBreaker where
  failure_threshold : Nat
  cooldown_seconds : ℚ
  half_open_max_calls : Nat
  states : List (String × ResourceState)
  deriving DecidableEq, Repr

namespace CircuitBreaker

/-- `CircuitBreaker._get_state`: fetch the record for `source`,
initializing to CLOSED/0/0.0/0 when absent. -/
def getState (b : CircuitBreaker) (source : String) : ResourceState :=
  match b.states.lookup source with
  | some st => st
  | none => { state := .closed, failures := 0, last_failure_time := 0, half_open_calls := 0 }

/-- Replace (or insert) the record for `source` in the `_states` dict. -/
def setState (b : CircuitBreaker) (source : String) (st : ResourceState) : CircuitBreaker :=
  { b with states := (source, st) :: b.states.filter (fun p => p.1 ≠ source) }

/-- `CircuitBreaker.is_available(source)`. Wall-clock `time.time()` is the
explicit parameter `now`. Returns the availability flag together with the
(possibly updated) breaker, since the OPEN branch mutates `_states`. -/
def is_available (b : CircuitBreaker) (source : String) (now : ℚ) :
    Bool × CircuitBreaker :=
  let st := b.getState source
  match st.state with
  | .closed => (true, b.setState source st)
  | .open =>
    let time_since_failure := now - st.last_failure_time
    if b.cooldown_seconds ≤ time_since_failure then
      (true, b.setState source { st with state := .halfOpen, half_open_calls := 0 })
    else
      (false, b.setState source st)
  | .halfOpen =>
    if st.half_open_calls < b.half_open_max_calls then
      (true, b.setState source st)
    else
      (false, b.setState source st)

/-- `CircuitBreaker.record_success(source)`: unconditionally reset the
record to CLOSED with zero failures and zero half-open calls. -/
def record_success (b : CircuitBreaker) (source : String) : CircuitBreaker :=
  let st := b.getState source
  b.setState source { st with state := .closed, failures := 0, half_open_calls := 0 }

/-- `CircuitBreaker.record_failure(source)`: bump the counter, stamp the
failure time, and move to OPEN from HALF_OPEN or past the threshold. -/
def record_failure (b : CircuitBreaker) (source : String) (now : ℚ) : CircuitBreaker :=
  let st := b.getState source
  let st := { st with failures := st.failures + 1, last_failure_time := now }
  if st.state = .halfOpen then
    b.setState source { st with state := .open, half_open_calls := 0 }
  else if b.failure_threshold ≤ st.failures then
    b.setState source { st with state := .open }
  else
    b.setState source st

end CircuitBreaker

/-! ### Symbol market classification (`data_provider/akshare_fetcher.py`)

Python string primitives are modelled on `List Char` so every
classification is computable by the kernel. -/

/-- Python `str.strip()` with no argument: drop ASCII whitespace from both
ends. -/
def pyStrip (cs : List Char) : List Char :=
  ((cs.dropWhile Char.isWhitespace).reverse.dropWhile Char.isWhitespace).reverse

/-- ASCII lower-casing of one character, as Python `str.lower()` does on
the ASCII symbols involved. -/
def asciiLowerChar (c : Char) : Char :=
  if 'A' ≤ c ∧ c ≤ 'Z' then Char.ofNat (c.toNat + 32) else c

/-- ASCII upper-casing of one character, as Python `str.upper()` does on
the ASCII symbols involved. -/
def asciiUpperChar (c : Char) : Char :=
  if 'a' ≤ c ∧ c ≤ 'z' then Char.ofNat (c.toNat - 32) else c

/-- Python `str.isdigit()` on the ASCII strings involved: non-empty and
all decimal digits. -/
def pyIsDigit (cs : List Char) : Bool :=
  !cs.isEmpty && cs.all Char.isDigit

/-- `_is_etf_code`: the code before the first dot, stripped, must be six
characters starting with one of the ETF prefixes. -/
def is_etf_code (stock_code : String) : Bool :=
  let etf_prefixes := ["51", "52", "56", "58", "15", "16", "18"]
  let code := (pyStrip stock_code.toList).takeWhile (fun c => c ≠ '.')
  (etf_prefixes.any (fun p => p.toList.isPrefixOf code)) && code.length == 6

/-- `_is_hk_code`: lower-case; an `hk` prefix followed by 1–5 digits, or a
bare 5-digit numeric string. -/
def is_hk_code (stock_code : String) : Bool :=
  let code := stock_code.toList.map asciiLowerChar
  if ['h', 'k'].isPrefixOf code then
    let numeric_part := code.drop 2
    pyIsDigit numeric_part && decide (1 ≤ numeric_part.length) &&
      decide (numeric_part.length ≤ 5)
  else
    pyIsDigit code && code.length == 5

/-- The regex `^[A-Z]{1,5}(\.[A-Z])?$` of `_is_us_code` as a function on
the character list: a block of 1–5 uppercase letters, optionally followed
by a dot and one uppercase letter. -/
def usPattern (cs : List Char) : Bool :=
  let letters := cs.takeWhile Char.isUpper
  let rest := cs.drop letters.length
  decide (1 ≤ letters.length) && decide (letters.length ≤ 5) &&
    (match rest with
     | [] => true
     | ['.', c] => c.isUpper
     | _ => false)

/-- `_is_us_code`: strip, upper-case, match the US-ticker regex. -/
def is_us_code (stock_code : String) : Bool :=
  usPattern ((pyStrip stock_code.toList).map asciiUpperChar)

/-- Market tags produced by the dispatch in `AkshareFetcher._fetch_raw_data`. -/
inductive Market where
  | us
  | hk
  | etf
  | ashare
  deriving DecidableEq, Repr

/-- The dispatch order of `AkshareFetcher._fetch_raw_data`: US, then HK,
then ETF, then A-share. -/
def classifyMarket (stock_code : String) : Market :=
  if is_us_code stock_code then .us
  else if is_hk_code stock_code then .hk
  else if is_etf_code stock_code then .etf
  else .ashare

/-! ### Configuration backends (`src/core/config_backend.py`, `src/core/config_manager.py`) -/

/-- Python `str.upper()` on the ASCII keys involved. -/
def pyUpper (s : String) : String :=
  String.mk (s.toList.map asciiUpperChar)

/-- A key/value store (the `system_config` table of `DbBackend`, or the
parsed `.env` map): total lookup returning `none` for absent keys. -/
def ConfigMap : Type := String → Option String

/-- Write one key into the store (`db.set_system_config`). -/
def ConfigMap.set (m : ConfigMap) (key value : String) : ConfigMap :=
  fun k => if k = key then some value else m k

/-- The loop body of `DbBackend.apply_updates`. `snapshot` is the map read
once up front (`current_values`), `db` the evolving store; `updated` and
`skipped` are the accumulating result lists. -/
def db_apply_updates_loop (snapshot : ConfigMap) (db : ConfigMap)
    (updates : List (String × String)) (sensitive : List String) (mask : String)
    (updated skipped : List String) :
    List String × List String × ConfigMap :=
  match updates with
  | [] => (updated, skipped, db)
  | (key, value) :: rest =>
    let ku := pyUpper key
    let cv := snapshot ku
    if ku ∈ sensitive ∧ value = mask then
      if cv ≠ none ∧ cv ≠ some "" then
        db_apply_updates_loop snapshot db rest sensitive mask updated (skipped ++ [ku])
      else
        db_apply_updates_loop snapshot db rest sensitive mask updated skipped
    else if cv = some value then
      db_apply_updates_loop snapshot db rest sensitive mask updated skipped
    else
      db_apply_updates_loop snapshot (db.set ku value) rest sensitive mask
        (updated ++ [ku]) skipped

/-- `DbBackend.apply_updates` on the key/value store: the snapshot is the
store as read before the loop; returns `(updated_keys, skipped_masked,
final store)` (the version string is derived from the final store). -/
def db_apply_updates (current : ConfigMap) (updates : List (String × String))
    (sensitive : List String) (mask : String) :
    List String × List String × ConfigMap :=
  db_apply_updates_loop current current updates sensitive mask [] []

/-! #### `.env` line-level upsert (`ConfigManager._atomic_upsert`) -/

/-- First character class of `_ASSIGNMENT_PATTERN`'s key group:
`[A-Za-z_]`. -/
def isIdentStart (c : Char) : Bool :=
  ('A' ≤ c && c ≤ 'Z') || ('a' ≤ c && c ≤ 'z') || c = '_'

/-- Continuation class of the key group: `[A-Za-z0-9_]`. -/
def isIdentChar (c : Char) : Bool :=
  isIdentStart c || ('0' ≤ c && c ≤ '9')

/-- Match `_ASSIGNMENT_PATTERN` (`^\s*([A-Za-z_][A-Za-z0-9_]*)\s*=\s*(.*)$`)
against a raw line and return the key group when it matches. -/
def matchAssignmentKey (cs : List Char) : Option (List Char) :=
  let rest := cs.dropWhile Char.isWhitespace
  match rest with
  | [] => none
  | c :: _ =>
    if isIdentStart c then
      let ident := rest.takeWhile isIdentChar
      match (rest.drop ident.length).dropWhile Char.isWhitespace with
      | '=' :: _ => some ident
      | _ => none
    else none

/-- The key contributed by one raw line in `_find_last_key_indexes`:
blank lines and `#` comments are skipped, then the assignment pattern is
matched and the key upper-cased. -/
def lineKey (l : List Char) : Option String :=
  let stripped := pyStrip l
  if stripped = [] ∨ stripped.headD ' ' = '#' then none
  else (matchAssignmentKey l).map (fun ident => String.mk (ident.map asciiUpperChar))

/-- Insert-or-replace into the `key_to_index` dict. -/
def insertIndex (m : List (String × Nat)) (k : String) (i : Nat) :
    List (String × Nat) :=
  (k, i) :: m.filter (fun p => p.1 ≠ k)

/-- `ConfigManager._find_last_key_indexes`: map each assignment key to the
index of its last occurrence. -/
def find_last_key_indexes (lines : List (List Char)) : List (String × Nat) :=
  (lines.enum).foldl
    (fun m p =>
      match lineKey p.2 with
      | some k => insertIndex m k p.1
      | none => m)
    []

/-- The `KEY=VALUE` line composed by `_atomic_upsert` for one update:
`line_value = value.replace("\n", "")` then `f"{key}={line_value}"`. -/
def upsertLine (kv : String × String) : List Char :=
  kv.1.toList ++ '=' :: kv.2.toList.filter (fun c => c ≠ '\n')

/-- One iteration of the `_atomic_upsert` loop: replace the last
occurrence of the key, or append a fresh line. -/
def upsertStep (key_to_index : List (String × Nat)) (ls : List (List Char))
    (kv : String × String) : List (List Char) :=
  match key_to_index.lookup kv.1 with
  | some idx => ls.set idx (upsertLine kv)
  | none => ls ++ [upsertLine kv]

/-- The line-rewriting loop of `ConfigManager._atomic_upsert`: for each
update, strip newlines from the value, compose `KEY=VALUE`, and either
replace the last occurrence of the key or append at the end. The
`key_to_index` dict is computed once from the original lines. -/
def atomic_upsert_lines (lines : List (List Char))
    (updates : List (String × String)) : List (List Char) :=
  updates.foldl (upsertStep (find_last_key_indexes lines)) lines

/-! ### Expert panel (`src/core/expert_panel.py`) -/

/-- Python's `x or default` on an optional string: `None` and the empty
string both fall back to the default. -/
def pyOr (o : Option String) (d : String) : String :=
  match o with
  | some s => if s = "" then d else s
  | none => d

/-- The `battle_plan` sub-dict of an analyzer's `to_dict()` output; the
`sniper_points` payload itself is kept opaque as a string. -/
structure BattlePlan where
  sniper_points : Option String
  deriving DecidableEq, Repr

/-- The `dashboard` sub-dict of an analyzer's `to_dict()` output. -/
structure Dashboard where
  battle_plan : Option BattlePlan
  deriving DecidableEq, Repr

/-- The `raw_result` dict carried by a `ModelResult`: only the keys the
consensus computation reads are modelled; an absent key is `none` (Python
dict truthiness: a present non-empty dict is truthy). -/
structure RawResult where
  dashboard : Option Dashboard
  deriving DecidableEq, Repr

/-- `ModelResult` dataclass (`expert_panel.py`). `elapsed_seconds` is
wall-clock time, fixed at 0 in this embedding. -/
structure ModelResult where
  model_name : String
  success : Bool
  score : Option Int := none
  advice : Option String := none
  trend : Option String := none
  summary : Option String := none
  confidence : Option String := none
  raw_result : Option RawResult := none
  error : Option String := none
  elapsed_seconds : ℚ := 0
  endpoint_tried : List String := []
  endpoint_used : Option String := none
  fallback_count : Nat := 0
  deriving DecidableEq, Repr

/-- `ModelEndpoint` dataclass. -/
structure ModelEndpoint where
  id : String
  api_key : String
  base_url : Option String := none
  priority : Int := 0
  enabled : Bool := true
  temperature : Option ℚ := none
  verify_ssl : Bool := true
  source_name : Option String := none
  deriving DecidableEq, Repr

/-- `ModelConfig` dataclass. -/
structure ModelConfig where
  name : String
  provider : String
  model_name : Option String := none
  endpoints : List ModelEndpoint := []
  deriving DecidableEq, Repr

/-- Python's `needle in haystack` substring test on character lists. -/
def containsSub (needle : List Char) : List Char → Bool
  | [] => needle.isEmpty
  | c :: rest => needle.isPrefixOf (c :: rest) || containsSub needle rest

/-- Python's `s[:n]` truncation, by code points. -/
def pySlice (s : String) (n : Nat) : String :=
  String.mk (s.toList.take n)

/-- The switchable-error classification as the specification words it:
the error text indicates HTTP 401/403/429, a 5xx of 500/502/503/504, a
timeout, or a connection/network/SSL problem (case-insensitively, as a
substring). Defined from the spec for comparison with
`is_endpoint_switchable_error`. -/
def spec_switchable_markers : List String :=
  ["401", "403", "429", "500", "502", "503", "504",
   "timeout", "timed out", "connect", "connection", "network", "ssl"]

/-- Spec-side switchable predicate over `spec_switchable_markers`. -/
def spec_is_switchable (t : String) : Bool :=
  spec_switchable_markers.any
    (fun marker => containsSub marker.toList (t.toList.map asciiLowerChar))

/-- `_is_endpoint_switchable_error`: lower-case the text and look for the
HTTP 401/403/429 codes, the 500/502/503/504 markers, or the
timeout/connection/network/SSL markers as substrings. -/
def is_endpoint_switchable_error (error_text : String) : Bool :=
  let lowered := error_text.toList.map asciiLowerChar
  (["401", "403", "429"].any (fun code => containsSub code.toList lowered)) ||
  (["500", "502", "503", "504"].any (fun marker => containsSub marker.toList lowered)) ||
  (["timeout", "timed out", "connect", "connection", "network", "ssl"].any
    (fun marker => containsSub marker.toList lowered))

/-- What `analyzer.analyze(...)` returned: the attributes `_run_single_model`
reads off the result object. -/
structure AnalyzerResult where
  success : Bool
  sentiment_score : Option Int := none
  operation_advice : Option String := none
  trend_prediction : Option String := none
  analysis_summary : Option String := none
  confidence_level : Option String := none
  error_message : Option String := none
  to_dict : Option RawResult := none
  deriving DecidableEq, Repr

/-- Behaviour of one endpoint attempt inside `_run_single_model`: the
analyzer is unavailable, returns a result object, or raises. -/
inductive EndpointOutcome where
  | unavailable
  | result (r : AnalyzerResult)
  | exn (text : String)
  deriving DecidableEq, Repr

/-- Stable insertion into a priority-descending list: equal priorities
keep the existing (earlier) element first, as Python's stable
`sorted(..., reverse=True)` does. -/
def insertByPriorityDesc (e : ModelEndpoint) : List ModelEndpoint → List ModelEndpoint
  | [] => [e]
  | x :: xs =>
    if x.priority ≤ e.priority then e :: x :: xs else x :: insertByPriorityDesc e xs

/-- `sorted(filtered, key=priority, reverse=True)`: stable descending. -/
def sortByPriorityDesc (l : List ModelEndpoint) : List ModelEndpoint :=
  l.foldr insertByPriorityDesc []

/-- The endpoint list actually iterated by `_run_single_model`: filter
by `enabled`, then sort by priority descending. -/
def activeEndpoints (model : ModelConfig) : List ModelEndpoint :=
  sortByPriorityDesc (model.endpoints.filter (fun e => e.enabled))

/-- The endpoint loop of `_run_single_model`: `endpoint_tried`, the
enumerate index and `last_error` mirror the Python loop state. -/
def run_model_loop (outcome : ModelEndpoint → EndpointOutcome) (model : ModelConfig) :
    List ModelEndpoint → List String → Nat → Option String → ModelResult
  | [], endpoint_tried, _, last_error =>
    { model_name := model.name, success := false,
      error := some (pySlice (pyOr last_error "所有 endpoint 均失败") 200),
      endpoint_tried := endpoint_tried, endpoint_used := none,
      fallback_count := endpoint_tried.length - 1 }
  | e :: rest, endpoint_tried, index, _ =>
    let endpoint_tried := endpoint_tried ++ [e.id]
    match outcome e with
    | .unavailable =>
      run_model_loop outcome model rest endpoint_tried (index + 1)
        (some "分析器初始化失败或 API Key 无效")
    | .result r =>
      if r.success then
        { model_name := model.name, success := true, score := r.sentiment_score,
          advice := r.operation_advice, trend := r.trend_prediction,
          summary := r.analysis_summary, confidence := r.confidence_level,
          raw_result := r.to_dict, endpoint_tried := endpoint_tried,
          endpoint_used := some e.id, fallback_count := index }
      else
        let error_text := pyOr r.error_message "模型返回失败"
        if is_endpoint_switchable_error error_text then
          run_model_loop outcome model rest endpoint_tried (index + 1) (some error_text)
        else
          { model_name := model.name, success := false,
            error := some (pySlice error_text 200), endpoint_tried := endpoint_tried,
            endpoint_used := some e.id, fallback_count := index }
    | .exn t =>
      let error_text := pySlice t 400
      if is_endpoint_switchable_error error_text then
        run_model_loop outcome model rest endpoint_tried (index + 1) (some error_text)
      else
        { model_name := model.name, success := false,
          error := some (pySlice error_text 200), endpoint_tried := endpoint_tried,
          endpoint_used := some e.id, fallback_count := index }

/-- `_run_single_model`: filter and sort the endpoint pool, short-circuit
when it is empty, otherwise run the failover loop. -/
def run_single_model (outcome : ModelEndpoint → EndpointOutcome)
    (model : ModelConfig) : ModelResult :=
  let endpoints := activeEndpoints model
  if endpoints = [] then
    { model_name := model.name, success := false,
      error := some "没有可用 endpoint（全部被禁用或未配置）",
      endpoint_tried := [], fallback_count := 0 }
  else
    run_model_loop outcome model endpoints [] 0 none

/-! #### Consensus (`_compute_consensus`) -/

/-- Python 3 `round` on an exact rational: nearest integer, ties to the
even neighbour (the sums and counts reaching `round` in
`_compute_consensus` make exact dyadic ties, where float and rational
rounding agree). -/
def pyRound (x : ℚ) : ℤ :=
  let f := ⌊x⌋
  let r := x - f
  if r < 1/2 then f
  else if 1/2 < r then f + 1
  else if f % 2 = 0 then f else f + 1

/-- `advice_counts[advice] = advice_counts.get(advice, 0) + 1` on an
insertion-ordered dict. -/
def incrCount (m : List (String × Nat)) (a : String) : List (String × Nat) :=
  if (m.lookup a).isSome then
    m.map (fun p => if p.1 = a then (p.1, p.2 + 1) else p)
  else
    m ++ [(a, 1)]

/-- The `advice_counts` dict: count each truthy (present, non-empty)
advice of the successful results, in iteration order. -/
def adviceCounts (successful : List ModelResult) : List (String × Nat) :=
  successful.foldl
    (fun m r =>
      match r.advice with
      | some a => if a ≠ "" then incrCount m a else m
      | none => m)
    []

/-- Python `max(iterable, key=...)` keeps the first element attaining the
maximal key. -/
def pyMaxByCount (m : List (String × Nat)) : Option (String × Nat) :=
  m.foldl
    (fun acc p =>
      match acc with
      | none => some p
      | some b => if b.2 < p.2 then some p else some b)
    none

/-- Python `max(models, key=lambda x: x.score or 0)`: first maximum. -/
def pyMaxByScore (l : List ModelResult) : Option ModelResult :=
  l.foldl
    (fun acc r =>
      match acc with
      | none => some r
      | some b => if (b.score.getD 0) < (r.score.getD 0) then some r else some b)
    none

/-- Python `min` over a non-empty integer list. -/
def pyMinList (l : List Int) : Int :=
  match l with
  | [] => 0
  | x :: xs => xs.foldl min x

/-- Python `max` over a non-empty integer list. -/
def pyMaxList (l : List Int) : Int :=
  match l with
  | [] => 0
  | x :: xs => xs.foldl max x

/-- The `sniper_points` chain
`r.raw_result["dashboard"]["battle_plan"].get("sniper_points")` as an
option chain. -/
def sniperPoints (r : ModelResult) : Option String :=
  (((r.raw_result.bind (fun raw => raw.dashboard)).bind
    (fun d => d.battle_plan)).bind (fun b => b.sniper_points))

/-- Consensus fields returned by `_compute_consensus`. -/
structure Consensus where
  score : Option Int
  advice : String
  summary : String
  strategy : Option String
  deriving DecidableEq, Repr

/-- Render an optional advice inside the dissenting-views f-string, where
Python prints `None` for an absent value. -/
def adviceText (o : Option String) : String :=
  match o with
  | some a => a
  | none => "None"

/-- `_compute_consensus`: filter the successful scored results, average
their scores with Python rounding, pick the modal advice (first max,
insertion order), select a strategy, and compose the summary string. -/
def compute_consensus (results : List ModelResult) : Consensus :=
  let successful := results.filter (fun r => r.success && r.score.isSome)
  if successful = [] then
    { score := none, advice := "数据不足",
      summary := "所有模型分析均失败，无法生成共识结论。", strategy := none }
  else
    let scores : List ℤ := successful.filterMap (fun r => r.score)
    let avg_score := pyRound ((scores.sum : ℚ) / (successful.length : ℚ))
    let advice_counts := adviceCounts successful
    let valid_strategies := successful.filterMap sniperPoints
    let top_advice :=
      match pyMaxByCount advice_counts with
      | some p => p.1
      | none => "观望"
    let consensus_strategy :=
      if valid_strategies ≠ [] then
        let matching_models := successful.filter
          (fun r => r.advice == some top_advice &&
            (r.raw_result.bind (fun raw => raw.dashboard)).isSome)
        let from_best :=
          match pyMaxByScore matching_models with
          | some best => sniperPoints best
          | none => none
        match from_best with
        | some s => some s
        | none => valid_strategies.head?
      else none
    let agree_count := (advice_counts.lookup top_advice).getD 0
    let total := successful.length
    let consensus_text :=
      if agree_count = total then
        "全部 " ++ toString total ++ " 位专家一致建议【" ++ top_advice ++ "】"
      else
        let base := toString agree_count ++ "/" ++ toString total ++
          " 位专家建议【" ++ top_advice ++ "】"
        let dissenting := successful.filter (fun r => r.advice != some top_advice)
        if dissenting ≠ [] then
          let alt_views := String.intercalate ", "
            (dissenting.map (fun r => r.model_name ++ "建议" ++ adviceText r.advice))
          base ++ "，但 " ++ alt_views
        else base
    let score_range := "评分区间: " ++ toString (pyMinList scores) ++ "-" ++
      toString (pyMaxList scores) ++ ", 均值: " ++ toString avg_score
    { score := some avg_score, advice := top_advice,
      summary := "📊 " ++ consensus_text ++ "。" ++ score_range ++ "。",
      strategy := consensus_strategy }

/-! ### System config service (`src/services/system_config_service.py`) -/

/-- One entry of a validation issue list (`_collect_issues` emits dicts
with at least `key`, `message` and `severity`). -/
structure ConfigIssue where
  key : String
  message : String
  severity : String
  deriving DecidableEq, Repr

/-- Errors raised by `SystemConfigService.update`. -/
inductive ConfigError where
  | conflict (current_version : String)
  | validation_failed (issues : List ConfigIssue)
  deriving DecidableEq, Repr

/-- The successful return payload of `SystemConfigService.update`. -/
structure UpdateResult where
  success : Bool
  config_version : String
  applied_count : Nat
  skipped_masked_count : Nat
  reload_triggered : Bool
  updated_keys : List String
  deriving DecidableEq, Repr

/-- The backend operations `SystemConfigService` depends on (the service
takes whichever backend `get_config_backend()` selected). -/
structure BackendOps (σ : Type) where
  get_config_version : σ → String
  apply_updates : σ → List (String × String) → List String → String →
    (List String × List String × String) × σ

/-- `SystemConfigService.update`: version check, then validation, then
backend apply. An exception leaves the backend state unchanged, so the
function returns the paired state explicitly; the runtime reload step
(environment re-read) is outside the embedding and only reflected in the
`reload_triggered` flag. -/
def service_update {σ : Type} (ops : BackendOps σ)
    (collect_issues : List (String × String) → String → List ConfigIssue)
    (is_sensitive : String → Bool) (state : σ) (config_version : String)
    (items : List (String × String)) (mask_token : String)
    (reload_now : Bool) : Except ConfigError UpdateResult × σ :=
  let current_version := ops.get_config_version state
  if current_version ≠ config_version then
    (.error (.conflict current_version), state)
  else
    let issues := collect_issues items mask_token
    let errors := issues.filter (fun i => i.severity = "error")
    if errors ≠ [] then
      (.error (.validation_failed errors), state)
    else
      let updates := items.map (fun i => (pyUpper i.1, i.2))
      let sensitive_keys := (items.map (fun i => pyUpper i.1)).filter is_sensitive
      let applied := ops.apply_updates state updates sensitive_keys mask_token
      (.ok { success := true, config_version := applied.1.2.2,
             applied_count := applied.1.1.length,
             skipped_masked_count := applied.1.2.1.length,
             reload_triggered := reload_now,
             updated_keys := applied.1.1 }, applied.2)

/-! ### Task queue (`src/services/task_queue.py` — not in the source tree) -/

/-- Task lifecycle states. -/
inductive TaskState where
  | pending
  | processing
  | completed
  | failed
  deriving DecidableEq, Repr

/-- Modelled from the spec: the Task record of the queue (`task_id`,
`stock_code`, optional name, report type, force-refresh flag, status);
`src/services/task_queue.py` itself is absent from the tree, only its
caller `_handle_async_analysis` is present. -/
structure TaskInfo where
  task_id : String
  stock_code : String
  stock_name : Option String := none
  report_type : String := "full"
  force_refresh : Bool := false
  status : TaskState := .pending
  deriving DecidableEq, Repr

/-- Modelled from the spec: queue state is the task table. -/
structure TaskQueue where
  tasks : List TaskInfo
  deriving DecidableEq, Repr

/-- Modelled from the spec: the payload of `DuplicateTaskError`, which
carries the colliding `stock_code` and the existing task's id. -/
structure DuplicateTask where
  stock_code : String
  existing_task_id : String
  deriving DecidableEq, Repr

/-- A task blocks resubmission of its stock code when it is pending or
processing. -/
def isActiveFor (stock_code : String) (t : TaskInfo) : Bool :=
  t.stock_code == stock_code &&
    (t.status == TaskState.pending || t.status == TaskState.processing)

/-- Modelled from the spec: `submit_task` fails with `DuplicateTaskError`
carrying the existing task's id when a task for the same `stock_code` is
pending or processing, and otherwise appends a fresh pending task. -/
def TaskQueue.submit_task (q : TaskQueue) (new_id stock_code : String)
    (stock_name : Option String) (report_type : String) (force_refresh : Bool) :
    Except DuplicateTask (TaskInfo × TaskQueue) :=
  match q.tasks.find? (isActiveFor stock_code) with
  | some existing => .error ⟨stock_code, existing.task_id⟩
  | none =>
    let task : TaskInfo :=
      { task_id := new_id, stock_code := stock_code, stock_name := stock_name,
        report_type := report_type, force_refresh := force_refresh,
        status := .pending }
    .ok (task, ⟨q.tasks ++ [task]⟩)

/-- The JSON body `_handle_async_analysis` returns. -/
inductive AnalysisResponseBody where
  | accepted (task_id status message : String)
  | duplicate (error message stock_code existing_task_id : String)
  deriving DecidableEq, Repr

/-- `_handle_async_analysis` (`api/v1/endpoints/analysis.py`): submit to
the queue; 202 with a pending `TaskAccepted` payload on success, 409 with
a `duplicate_task` body carrying the existing task id on collision. The
queue state is returned alongside (unchanged in the 409 case). -/
def handle_async_analysis (q : TaskQueue) (new_id stock_code : String)
    (report_type : String) (force_refresh : Bool) :
    (Nat × AnalysisResponseBody) × TaskQueue :=
  match q.submit_task new_id stock_code none report_type force_refresh with
  | .ok (task, q') =>
    ((202, .accepted task.task_id "pending" ("分析任务已加入队列: " ++ stock_code)), q')
  | .error e =>
    ((409, .duplicate "duplicate_task"
      ("股票 " ++ e.stock_code ++ " 已有任务在处理中") e.stock_code
      e.existing_task_id), q)

/-- The dedup invariant of the spec: at most one task per stock code in
state pending/processing. -/
def DedupInvariant (q : TaskQueue) : Prop :=
  ∀ code : String, (q.tasks.filter (isActiveFor code)).length ≤ 1

end StockAnalysis

namespace StockAnalysis

/-! #### Lemmas about `DbBackend.apply_updates` -/

theorem ConfigMap.set_same (m : ConfigMap) (key value : String) :
    (m.set key value) key = some value := by
  simp [ConfigMap.set]

theorem ConfigMap.set_other (m : ConfigMap) (key value k : String) (h : k ≠ key) :
    (m.set key value) k = m k := by
  simp [ConfigMap.set, h]

/-- Keys untouched by any update keep their value through the loop. -/
theorem db_loop_frame (snapshot : ConfigMap) (sensitive : List String) (mask : String)
    (updates : List (String × String)) (db : ConfigMap)
    (updated skipped : List String) (k : String)
    (h : ∀ p ∈ updates, pyUpper p.1 ≠ k) :
    (db_apply_updates_loop snapshot db updates sensitive mask updated skipped).2.2 k
      = db k := by
  induction updates generalizing db updated skipped with
  | nil => rfl
  | cons p rest ih =>
    obtain ⟨key, value⟩ := p
    have hk : pyUpper key ≠ k := h (key, value) (List.mem_cons_self _ _)
    have hrest : ∀ q ∈ rest, pyUpper q.1 ≠ k := fun q hq => h q (List.mem_cons_of_mem _ hq)
    simp only [db_apply_updates_loop]
    split_ifs with h1 h2 h3
    · exact ih db updated (skipped ++ [pyUpper key]) hrest
    · exact ih db updated skipped hrest
    · exact ih db updated skipped hrest
    · rw [ih (db.set (pyUpper key) value) (updated ++ [pyUpper key]) skipped hrest]
      exact ConfigMap.set_other db (pyUpper key) value k (Ne.symm hk)

/-- Every key emitted into `updated_keys` either was there already or is
the upper-cased key of a non-masked item of the update list. -/
theorem db_loop_updated_sources (snapshot : ConfigMap) (sensitive : List String)
    (mask : String) (updates : List (String × String)) (db : ConfigMap)
    (updated skipped : List String) (x : String)
    (hx : x ∈ (db_apply_updates_loop snapshot db updates sensitive mask updated skipped).1) :
    x ∈ updated ∨ ∃ p ∈ updates, pyUpper p.1 = x ∧
      ¬(pyUpper p.1 ∈ sensitive ∧ p.2 = mask) := by
  induction updates generalizing db updated skipped with
  | nil => exact Or.inl hx
  | cons p rest ih =>
    obtain ⟨key, value⟩ := p
    simp only [db_apply_updates_loop] at hx
    split_ifs at hx with h1 h2 h3
    · rcases ih db updated (skipped ++ [pyUpper key]) hx with h | ⟨q, hq, hq2⟩
      · exact Or.inl h
      · exact Or.inr ⟨q, List.mem_cons_of_mem _ hq, hq2⟩
    · rcases ih db updated skipped hx with h | ⟨q, hq, hq2⟩
      · exact Or.inl h
      · exact Or.inr ⟨q, List.mem_cons_of_mem _ hq, hq2⟩
    · rcases ih db updated skipped hx with h | ⟨q, hq, hq2⟩
      · exact Or.inl h
      · exact Or.inr ⟨q, List.mem_cons_of_mem _ hq, hq2⟩
    · rcases ih (db.set (pyUpper key) value) (updated ++ [pyUpper key]) skipped hx with
        h | ⟨q, hq, hq2⟩
      · rcases List.mem_append.mp h with h' | h'
        · exact Or.inl h'
        · refine Or.inr ⟨(key, value), List.mem_cons_self _ _, ?_, h1⟩
          exact (List.mem_singleton.mp h').symm
      · exact Or.inr ⟨q, List.mem_cons_of_mem _ hq, hq2⟩

/-- The skipped-masked accumulator only grows. -/
theorem db_loop_skipped_mono (snapshot : ConfigMap) (sensitive : List String)
    (mask : String) (updates : List (String × String)) (db : ConfigMap)
    (updated skipped : List String) (x : String) (hx : x ∈ skipped) :
    x ∈ (db_apply_updates_loop snapshot db updates sensitive mask updated skipped).2.1 := by
  induction updates generalizing db updated skipped with
  | nil => exact hx
  | cons p rest ih =>
    obtain ⟨key, value⟩ := p
    simp only [db_apply_updates_loop]
    split_ifs with h1 h2 h3
    · exact ih db updated (skipped ++ [pyUpper key]) (List.mem_append_left _ hx)
    · exact ih db updated skipped hx
    · exact ih db updated skipped hx
    · exact ih (db.set (pyUpper key) value) (updated ++ [pyUpper key]) skipped hx

/-- A sensitive item submitted as the mask token over a non-empty stored
value is recorded under `skipped_masked`. -/
theorem db_loop_masked_skipped (snapshot : ConfigMap) (sensitive : List String)
    (mask : String) (updates : List (String × String)) (db : ConfigMap)
    (updated skipped : List String) (K v : String)
    (hmem : (K, mask) ∈ updates)
    (hsens : pyUpper K ∈ sensitive) (hval : snapshot (pyUpper K) = some v)
    (hne : v ≠ "") :
    pyUpper K ∈
      (db_apply_updates_loop snapshot db updates sensitive mask updated skipped).2.1 := by
  induction updates generalizing db updated skipped with
  | nil => exact absurd hmem (List.not_mem_nil _)
  | cons p rest ih =>
    obtain ⟨key, value⟩ := p
    rcases List.mem_cons.mp hmem with heq | hrest
    · injection heq with hk hv
      subst hk; subst hv
      simp only [db_apply_updates_loop]
      split_ifs with h1 h2 h3
      · exact db_loop_skipped_mono snapshot sensitive mask rest db updated
          (skipped ++ [pyUpper K]) (pyUpper K)
          (List.mem_append_right _ (List.mem_singleton.mpr rfl))
      · exact absurd (by rw [hval]; exact ⟨by simp, by simp [hne]⟩) h2
      · exact absurd ⟨hsens, trivial⟩ h1
      · exact absurd ⟨hsens, trivial⟩ h1
    · simp only [db_apply_updates_loop]
      split_ifs with h1 h2 h3
      · exact ih db updated (skipped ++ [pyUpper key]) hrest
      · exact ih db updated skipped hrest
      · exact ih db updated skipped hrest
      · exact ih (db.set (pyUpper key) value) (updated ++ [pyUpper key]) skipped hrest

/-- Non-masked items are applied: after the loop, the store holds each
submitted value whose item is not a masked sensitive item, provided the
upper-cased keys are pairwise distinct and the evolving store still agrees
with the snapshot on the not-yet-processed keys. -/
theorem db_loop_applied (snapshot : ConfigMap) (sensitive : List String)
    (mask : String) (updates : List (String × String)) (db : ConfigMap)
    (updated skipped : List String)
    (hnodup : (updates.map (fun p => pyUpper p.1)).Nodup)
    (hagree : ∀ p ∈ updates, db (pyUpper p.1) = snapshot (pyUpper p.1))
    (qk qv : String) (hq : (qk, qv) ∈ updates)
    (hnotmask : ¬(pyUpper qk ∈ sensitive ∧ qv = mask)) :
    (db_apply_updates_loop snapshot db updates sensitive mask updated skipped).2.2
      (pyUpper qk) = some qv := by
  induction updates generalizing db updated skipped with
  | nil => exact absurd hq (List.not_mem_nil _)
  | cons p rest ih =>
    obtain ⟨key, value⟩ := p
    have hnodup' : (rest.map (fun p => pyUpper p.1)).Nodup :=
      (List.nodup_cons.mp hnodup).2
    have hhead : pyUpper key ∉ rest.map (fun p => pyUpper p.1) :=
      (List.nodup_cons.mp hnodup).1
    rcases List.mem_cons.mp hq with heq | hrest
    · -- the item being applied is the head of the list
      injection heq with hk hv
      subst hk; subst hv
      have hframe : ∀ r ∈ rest, pyUpper r.1 ≠ pyUpper qk := by
        intro r hr hcontra
        exact hhead (hcontra ▸ List.mem_map_of_mem _ hr)
      simp only [db_apply_updates_loop]
      split_ifs with h1
      · rw [db_loop_frame snapshot sensitive mask rest db updated skipped _ hframe]
        rw [hagree (qk, qv) (List.mem_cons_self _ _)]
        exact h1
      · rw [db_loop_frame snapshot sensitive mask rest _ (updated ++ [pyUpper qk])
          skipped _ hframe]
        exact ConfigMap.set_same db (pyUpper qk) qv
    · -- the item sits in the tail; the head step cannot touch its key
      have hagree' : ∀ r ∈ rest, db (pyUpper r.1) = snapshot (pyUpper r.1) :=
        fun r hr => hagree r (List.mem_cons_of_mem _ hr)
      have hagree'' : ∀ r ∈ rest,
          (db.set (pyUpper key) value) (pyUpper r.1) = snapshot (pyUpper r.1) := by
        intro r hr
        have hr' : pyUpper r.1 ≠ pyUpper key := by
          intro hcontra
          exact hhead (hcontra ▸ List.mem_map_of_mem _ hr)
        rw [ConfigMap.set_other db (pyUpper key) value _ hr']
        exact hagree' r hr
      simp only [db_apply_updates_loop]
      split_ifs with h1 h2 h3
      · exact ih db updated (skipped ++ [pyUpper key]) hnodup' hagree' hrest
      · exact ih db updated skipped hnodup' hagree' hrest
      · exact ih db updated skipped hnodup' hagree' hrest
      · exact ih (db.set (pyUpper key) value) (updated ++ [pyUpper key]) skipped
          hnodup' hagree'' hrest

/-- For a masked sensitive item over a non-empty stored value, the loop
never writes the key: its stored value survives and it never enters the
updated-keys list. -/
theorem db_loop_masked_unchanged (snapshot : ConfigMap) (sensitive : List String)
    (mask : String) (updates : List (String × String)) (db : ConfigMap)
    (updated skipped : List String) (K v : String)
    (hmem : (K, mask) ∈ updates)
    (hnodup : (updates.map (fun p => pyUpper p.1)).Nodup)
    (hsens : pyUpper K ∈ sensitive) (hval : snapshot (pyUpper K) = some v)
    (hne : v ≠ "") (hdb : db (pyUpper K) = some v)
    (hupd : pyUpper K ∉ updated) :
    (db_apply_updates_loop snapshot db updates sensitive mask updated skipped).2.2
        (pyUpper K) = some v ∧
    pyUpper K ∉
      (db_apply_updates_loop snapshot db updates sensitive mask updated skipped).1 := by
  induction updates generalizing db updated skipped with
  | nil => exact absurd hmem (List.not_mem_nil _)
  | cons p rest ih =>
    obtain ⟨key, value⟩ := p
    have hnodup' : (rest.map (fun q => pyUpper q.1)).Nodup :=
      (List.nodup_cons.mp hnodup).2
    have hhead : pyUpper key ∉ rest.map (fun q => pyUpper q.1) :=
      (List.nodup_cons.mp hnodup).1
    rcases List.mem_cons.mp hmem with heq | hrest
    · -- head is the masked item: it takes the skip branch
      injection heq with hk hv
      subst hk; subst hv
      have hframe : ∀ r ∈ rest, pyUpper r.1 ≠ pyUpper K := by
        intro r hr hcontra
        exact hhead (hcontra ▸ List.mem_map_of_mem _ hr)
      simp only [db_apply_updates_loop]
      split_ifs with h1 h2 h3
      · constructor
        · rw [db_loop_frame snapshot sensitive mask rest db updated _ _ hframe]
          exact hdb
        · intro hcontra
          rcases db_loop_updated_sources snapshot sensitive mask rest db updated _ _
              hcontra with h | ⟨q, hq, hq1, _⟩
          · exact hupd h
          · exact hframe q hq hq1
      · exact absurd (by rw [hval]; exact ⟨by simp, by simp [hne]⟩) h2
      · exact absurd ⟨hsens, trivial⟩ h1
      · exact absurd ⟨hsens, trivial⟩ h1
    · -- head is a different item; its key differs from `pyUpper K`
      have hKinrest : pyUpper K ∈ rest.map (fun q => pyUpper q.1) :=
        List.mem_map_of_mem _ hrest
      have hne' : pyUpper key ≠ pyUpper K := fun hcontra => hhead (hcontra ▸ hKinrest)
      simp only [db_apply_updates_loop]
      split_ifs with h1 h2 h3
      · exact ih db updated (skipped ++ [pyUpper key]) hrest hnodup' hdb hupd
      · exact ih db updated skipped hrest hnodup' hdb hupd
      · exact ih db updated skipped hrest hnodup' hdb hupd
      · refine ih (db.set (pyUpper key) value)
          (updated ++ [pyUpper key]) skipped hrest hnodup' ?_ ?_
        · rw [ConfigMap.set_other db (pyUpper key) value _ (Ne.symm hne')]
          exact hdb
        · intro hcontra
          rcases List.mem_append.mp hcontra with h | h
          · exact hupd h
          · exact hne' (List.mem_singleton.mp h).symm

/-- C2: for a sensitive key `K` stored as a non-empty `v`, submitting
`K ↦ mask_token` through `apply_updates` leaves `v` unchanged, does not
list `K` among the updated keys, counts `K` under `skipped_masked`, and
every non-masked item of the same update is still applied. -/
theorem apply_updates_mask_protocol (current : ConfigMap)
    (updates : List (String × String)) (sensitive : List String)
    (mask K v : String)
    (hnodup : (updates.map (fun p => pyUpper p.1)).Nodup)
    (hsens : pyUpper K ∈ sensitive)
    (hval : current (pyUpper K) = some v) (hne : v ≠ "")
    (hmem : (K, mask) ∈ updates) :
    (db_apply_updates current updates sensitive mask).2.2 (pyUpper K) = some v ∧
    pyUpper K ∉ (db_apply_updates current updates sensitive mask).1 ∧
    pyUpper K ∈ (db_apply_updates current updates sensitive mask).2.1 ∧
    ∀ q ∈ updates, ¬(pyUpper q.1 ∈ sensitive ∧ q.2 = mask) →
      (db_apply_updates current updates sensitive mask).2.2 (pyUpper q.1)
        = some q.2 := by
  obtain ⟨h1, h2⟩ := db_loop_masked_unchanged current sensitive mask updates current
    [] [] K v hmem hnodup hsens hval hne hval (List.not_mem_nil _)
  refine ⟨h1, h2, ?_, ?_⟩
  · exact db_loop_masked_skipped current sensitive mask updates current [] [] K v
      hmem hsens hval hne
  · intro q hq hq2
    obtain ⟨qk, qv⟩ := q
    exact db_loop_applied current sensitive mask updates current [] [] hnodup
      (fun _ _ => rfl) qk qv hq hq2

/-- Witness for `apply_updates_mask_protocol`: the spec's scenario 4 with
`GEMINI_API_KEY` masked and `STOCK_LIST` updated. -/
theorem apply_updates_mask_protocol_witness :
    let current : ConfigMap := fun k =>
      if k = "GEMINI_API_KEY" then some "secret-key-value"
      else if k = "STOCK_LIST" then some "600519" else none
    let updates := [("GEMINI_API_KEY", "******"), ("STOCK_LIST", "600519,300750")]
    let sensitive := ["GEMINI_API_KEY"]
    (db_apply_updates current updates sensitive "******").2.2
        (pyUpper "GEMINI_API_KEY") = some "secret-key-value" ∧
    pyUpper "GEMINI_API_KEY" ∉ (db_apply_updates current updates sensitive "******").1 ∧
    pyUpper "GEMINI_API_KEY" ∈ (db_apply_updates current updates sensitive "******").2.1 ∧
    ∀ q ∈ updates, ¬(pyUpper q.1 ∈ sensitive ∧ q.2 = "******") →
      (db_apply_updates current updates sensitive "******").2.2 (pyUpper q.1)
        = some q.2 := by
  exact apply_updates_mask_protocol _ _ _ "******" "GEMINI_API_KEY" "secret-key-value"
    (by decide) (by decide) (by decide) (by decide) (by decide)

/-! #### Lemmas about `ConfigManager._atomic_upsert` -/

/-- A successful association-list lookup exhibits a member. -/
theorem lookup_mem {β : Type} (m : List (String × β)) (k : String) (i : β)
    (h : m.lookup k = some i) : (k, i) ∈ m := by
  induction m with
  | nil => exact absurd h (by simp [List.lookup])
  | cons p rest ih =>
    obtain ⟨a, b⟩ := p
    by_cases hk : k = a
    · subst hk
      simp [List.lookup] at h
      simp [h]
    · simp [List.lookup, beq_false_of_ne hk] at h
      exact List.mem_cons_of_mem _ (ih h)

/-- Every entry of the `key_to_index` dict points at a line of the
original file whose parsed key is exactly that entry's key. -/
theorem kti_entry_spec (lines : List (List Char)) (k : String) (i : Nat)
    (h : (k, i) ∈ find_last_key_indexes lines) :
    ∃ l, lines[i]? = some l ∧ lineKey l = some k := by
  have main : ∀ (ps : List (Nat × List Char)) (m : List (String × Nat)),
      (∀ q ∈ m, ∃ l, lines[q.2]? = some l ∧ lineKey l = some q.1) →
      (∀ q ∈ ps, lines[q.1]? = some q.2) →
      ∀ q ∈ ps.foldl
        (fun m p => match lineKey p.2 with
          | some key => insertIndex m key p.1
          | none => m) m,
      ∃ l, lines[q.2]? = some l ∧ lineKey l = some q.1 := by
    intro ps
    induction ps with
    | nil => intro m hm _ q hq; exact hm q hq
    | cons p rest ih =>
      intro m hm hps q hq
      obtain ⟨idx, line⟩ := p
      simp only [List.foldl_cons] at hq
      refine ih _ ?_ (fun r hr => hps r (List.mem_cons_of_mem _ hr)) q hq
      intro r hr
      rcases hkey : lineKey line with _ | key
      · rw [hkey] at hr
        exact hm r hr
      · rw [hkey] at hr
        simp only [insertIndex] at hr
        rcases List.mem_cons.mp hr with heq | hmem
        · subst heq
          exact ⟨line, hps (idx, line) (List.mem_cons_self _ _), hkey⟩
        · exact hm r (List.mem_of_mem_filter hmem)
  refine main lines.enum [] (by simp) ?_ (k, i) h
  intro q hq
  exact (List.mem_enum_iff_getElem?.mp hq)

/-- The `key_to_index` dict only holds in-range indexes. -/
theorem kti_bound (lines : List (List Char)) (k : String) (i : Nat)
    (h : (find_last_key_indexes lines).lookup k = some i) : i < lines.length := by
  obtain ⟨l, hl, _⟩ := kti_entry_spec lines k i (lookup_mem _ k i h)
  exact (List.getElem?_eq_some.mp hl).1

/-- Distinct keys occupy distinct indexes in `key_to_index`. -/
theorem kti_inj (lines : List (List Char)) (k₁ k₂ : String) (i : Nat)
    (h₁ : (find_last_key_indexes lines).lookup k₁ = some i)
    (h₂ : (find_last_key_indexes lines).lookup k₂ = some i) : k₁ = k₂ := by
  obtain ⟨l₁, hl₁, hk₁⟩ := kti_entry_spec lines k₁ i (lookup_mem _ k₁ i h₁)
  obtain ⟨l₂, hl₂, hk₂⟩ := kti_entry_spec lines k₂ i (lookup_mem _ k₂ i h₂)
  rw [hl₁] at hl₂
  injection hl₂ with hl
  rw [hl] at hk₁
  rw [hk₁] at hk₂
  injection hk₂

/-- The upsert fold never shrinks the line list. -/
theorem upsert_fold_length (kti : List (String × Nat))
    (us : List (String × String)) (ls : List (List Char)) :
    ls.length ≤ (us.foldl (upsertStep kti) ls).length := by
  induction us generalizing ls with
  | nil => exact le_refl _
  | cons u rest ih =>
    simp only [List.foldl_cons]
    refine le_trans ?_ (ih (upsertStep kti ls u))
    unfold upsertStep
    rcases kti.lookup u.1 with _ | idx
    · simp
    · simp

/-- Positions not targeted by any remaining update survive the fold. -/
theorem upsert_fold_frame (kti : List (String × Nat))
    (us : List (String × String)) (ls : List (List Char)) (i : Nat)
    (hi : i < ls.length)
    (hmiss : ∀ u ∈ us, kti.lookup u.1 ≠ some i) :
    (us.foldl (upsertStep kti) ls)[i]? = ls[i]? := by
  induction us generalizing ls with
  | nil => rfl
  | cons u rest ih =>
    simp only [List.foldl_cons]
    have hmiss' : ∀ w ∈ rest, kti.lookup w.1 ≠ some i :=
      fun w hw => hmiss w (List.mem_cons_of_mem _ hw)
    have hstep : (upsertStep kti ls u)[i]? = ls[i]? ∧ i < (upsertStep kti ls u).length := by
      unfold upsertStep
      rcases hidx : kti.lookup u.1 with _ | idx
      · constructor
        · exact List.getElem?_append_left hi
        · simp; omega
      · have hne : idx ≠ i := fun hcontra =>
          hmiss u (List.mem_cons_self _ _) (hcontra ▸ hidx)
        constructor
        · exact List.getElem?_set_ne hne
        · simpa using hi
    rw [ih (upsertStep kti ls u) hstep.2 hmiss', hstep.1]

/-- Every update's composed line is present (at a definite position) after
the fold, provided indexes are in range and injective and keys are
pairwise distinct. -/
theorem upsert_fold_mem (kti : List (String × Nat)) (L0 : Nat)
    (hbound : ∀ k i, kti.lookup k = some i → i < L0)
    (hinj : ∀ k₁ k₂ i, kti.lookup k₁ = some i → kti.lookup k₂ = some i → k₁ = k₂)
    (us : List (String × String)) (ls : List (List Char))
    (hlen : L0 ≤ ls.length)
    (hnodup : (us.map Prod.fst).Nodup) :
    ∀ p ∈ us, upsertLine p ∈ us.foldl (upsertStep kti) ls := by
  induction us generalizing ls with
  | nil => intro p hp; exact absurd hp (List.not_mem_nil _)
  | cons u rest ih =>
    intro p hp
    have hnodup' : (rest.map Prod.fst).Nodup := (List.nodup_cons.mp hnodup).2
    have hhead : u.1 ∉ rest.map Prod.fst := (List.nodup_cons.mp hnodup).1
    have hlen' : L0 ≤ (upsertStep kti ls u).length := by
      unfold upsertStep
      rcases kti.lookup u.1 with _ | idx
      · simp; omega
      · simpa using hlen
    rcases List.mem_cons.mp hp with heq | hrest
    · -- the head update: its line lands at a definite position and no
      -- later update can touch that position
      subst heq
      have hplaced : ∃ i, i < (upsertStep kti ls p).length ∧
          (upsertStep kti ls p)[i]? = some (upsertLine p) ∧
          (∀ w ∈ rest, kti.lookup w.1 ≠ some i) := by
        unfold upsertStep
        rcases hidx : kti.lookup p.1 with _ | idx
        · refine ⟨ls.length, by simp, ?_, ?_⟩
          · rw [List.getElem?_append_right (le_refl _)]
            simp
          · intro w _ hcontra
            have := hbound w.1 ls.length hcontra
            omega
        · have hlt : idx < ls.length := lt_of_lt_of_le (hbound p.1 idx hidx) hlen
          refine ⟨idx, by simpa using hlt, List.getElem?_set_eq_of_lt _ hlt, ?_⟩
          intro w hw hcontra
          exact hhead ((hinj w.1 p.1 idx hcontra hidx) ▸ List.mem_map_of_mem _ hw)
      obtain ⟨i, hilt, hline, hfree⟩ := hplaced
      have := upsert_fold_frame kti rest (upsertStep kti ls p) i hilt hfree
      simp only [List.foldl_cons]
      have hmem : (rest.foldl (upsertStep kti) (upsertStep kti ls p))[i]?
          = some (upsertLine p) := by rw [this, hline]
      exact List.getElem?_mem hmem
    · simp only [List.foldl_cons]
      exact ih (upsertStep kti ls u) hlen' hnodup' p hrest

/-- C10: `_atomic_upsert` strips every newline from each written value and
composes a single `KEY=VALUE` line per upserted key, so provided the
original lines are newline-free the rewritten file stays line-parseable:
all lines are newline-free and each upserted key contributes its own
composed line. -/
theorem atomic_upsert_line_parseable (lines : List (List Char))
    (updates : List (String × String))
    (hlines : ∀ l ∈ lines, '\n' ∉ l)
    (hkeys : ∀ p ∈ updates, '\n' ∉ p.1.toList)
    (hnodup : (updates.map Prod.fst).Nodup) :
    (∀ l ∈ atomic_upsert_lines lines updates, '\n' ∉ l) ∧
    ∀ p ∈ updates, upsertLine p ∈ atomic_upsert_lines lines updates := by
  constructor
  · -- newline-freeness is preserved through the fold
    have main : ∀ (us : List (String × String)) (ls : List (List Char)),
        (∀ l ∈ ls, '\n' ∉ l) → (∀ p ∈ us, '\n' ∉ p.1.toList) →
        ∀ l ∈ us.foldl (upsertStep (find_last_key_indexes lines)) ls, '\n' ∉ l := by
      intro us
      induction us with
      | nil => intro ls hls _ l hl; exact hls l hl
      | cons u rest ih =>
        intro ls hls hus l hl
        simp only [List.foldl_cons] at hl
        have hnew : '\n' ∉ upsertLine u := by
          intro hcontra
          rcases List.mem_append.mp hcontra with h | h
          · exact hus u (List.mem_cons_self _ _) h
          · rcases List.mem_cons.mp h with h' | h'
            · exact absurd h' (by decide)
            · exact absurd ((List.mem_filter.mp h').2) (by decide)
        refine ih (upsertStep (find_last_key_indexes lines) ls u) ?_
          (fun p hp => hus p (List.mem_cons_of_mem _ hp)) l hl
        intro l' hl'
        unfold upsertStep at hl'
        rcases hidx : (find_last_key_indexes lines).lookup u.1 with _ | idx <;>
          rw [hidx] at hl'
        · rcases List.mem_append.mp hl' with h | h
          · exact hls l' h
          · rw [List.mem_singleton.mp h]; exact hnew
        · rcases List.mem_or_eq_of_mem_set hl' with h | h
          · exact hls l' h
          · rw [h]; exact hnew
    exact main updates lines hlines hkeys
  · exact upsert_fold_mem (find_last_key_indexes lines) lines.length
      (kti_bound lines) (fun k₁ k₂ i h₁ h₂ => kti_inj lines k₁ k₂ i h₁ h₂)
      updates lines (le_refl _) hnodup

/-- Witness for `atomic_upsert_line_parseable`: a two-line `.env` file,
one replaced key whose new value contains a newline, one appended key. -/
theorem atomic_upsert_line_parseable_witness :
    let lines := [("STOCK_LIST=600519").toList, ("# comment").toList]
    let updates := [("STOCK_LIST", "600519\n300750"), ("NEW_KEY", "v")]
    (∀ l ∈ atomic_upsert_lines lines updates, '\n' ∉ l) ∧
    ∀ p ∈ updates, upsertLine p ∈ atomic_upsert_lines lines updates := by
  exact atomic_upsert_line_parseable _ _ (by decide) (by decide) (by decide)

/-! #### Config service optimistic locking -/

/-- C6: whenever the submitted `config_version` differs from the backend's
current version, `update` fails with `config_version_conflict` carrying
the current version, the backend state is unchanged, and the outcome is
the same for every validator and item list (so neither validation nor a
write has taken place). -/
theorem service_update_version_conflict {σ : Type} (ops : BackendOps σ)
    (collect_issues : List (String × String) → String → List ConfigIssue)
    (is_sensitive : String → Bool) (state : σ) (config_version : String)
    (items : List (String × String)) (mask_token : String) (reload_now : Bool)
    (h : ops.get_config_version state ≠ config_version) :
    service_update ops collect_issues is_sensitive state config_version items
        mask_token reload_now
      = (.error (.conflict (ops.get_config_version state)), state) := by
  simp [service_update, h]

/-- Witness for `service_update_version_conflict`: a counter-state backend
at version `V2` receiving an update against stale version `V1`. -/
theorem service_update_version_conflict_witness :
    let ops : BackendOps Nat :=
      { get_config_version := fun n => "V" ++ toString n,
        apply_updates := fun n updates _ _ => ((updates.map Prod.fst, [], "V9"), n + 1) }
    ("V2" : String) ≠ "V1" ∧
    service_update ops (fun _ _ => []) (fun _ => false) 2 "V1"
        [("STOCK_LIST", "600519")] "******" true
      = (.error (.conflict "V2"), 2) := by
  exact ⟨by decide, service_update_version_conflict _ _ _ 2 "V1" _ "******" true
    (by decide)⟩

/-! #### Task queue deduplication -/

/-- Two members of a list of length at most one coincide. -/
theorem eq_of_mem_length_le_one {α : Type} {l : List α} {a b : α}
    (hlen : l.length ≤ 1) (ha : a ∈ l) (hb : b ∈ l) : a = b := by
  match l with
  | [] => exact absurd ha (List.not_mem_nil _)
  | [x] =>
    rw [List.mem_singleton.mp ha, List.mem_singleton.mp hb]
  | x :: y :: rest => simp at hlen

/-- A single-task queue satisfies the dedup invariant. -/
theorem dedup_singleton (t : TaskInfo) : DedupInvariant ⟨[t]⟩ := by
  intro code
  by_cases h : isActiveFor code t = true <;> simp [List.filter, h]

/-- C1: under the dedup invariant, a successful submit preserves it (so at
most one task per stock code is ever pending/processing), and an async
submit while a pending/processing task for the code exists yields HTTP
409 with a `duplicate_task` body carrying that task's id and leaves the
queue unchanged. -/
theorem submit_task_dedup (q : TaskQueue) (new_id stock_code : String)
    (stock_name : Option String) (report_type : String) (force_refresh : Bool)
    (hinv : DedupInvariant q) :
    (∀ t q', q.submit_task new_id stock_code stock_name report_type force_refresh
        = .ok (t, q') → DedupInvariant q') ∧
    (∀ t ∈ q.tasks, isActiveFor stock_code t = true →
      handle_async_analysis q new_id stock_code report_type force_refresh =
        ((409, .duplicate "duplicate_task"
          ("股票 " ++ stock_code ++ " 已有任务在处理中") stock_code t.task_id), q)) := by
  constructor
  · intro t q' hok
    unfold TaskQueue.submit_task at hok
    rcases hfind : q.tasks.find? (isActiveFor stock_code) with _ | existing
    · rw [hfind] at hok
      simp only [Except.ok.injEq, Prod.mk.injEq] at hok
      obtain ⟨-, hq'⟩ := hok
      subst hq'
      intro code
      rw [List.filter_append]
      by_cases hact : isActiveFor code
          { task_id := new_id, stock_code := stock_code, stock_name := stock_name,
            report_type := report_type, force_refresh := force_refresh,
            status := .pending } = true
      · -- the appended task is active for `code`, hence `code` is the
        -- submitted stock code and no prior task for it was active
        have hcode : stock_code = code := by
          have := hact
          simp only [isActiveFor, Bool.and_eq_true, beq_iff_eq] at this
          exact this.1


        have hnone : ∀ u ∈ q.tasks, ¬ isActiveFor stock_code u = true :=
          List.find?_eq_none.mp hfind
        have hfilter : q.tasks.filter (isActiveFor code) = [] := by
          rw [List.filter_eq_nil_iff]
          intro u hu
          exact hcode ▸ hnone u hu
        rw [hfilter]
        simp [List.filter, hact]
      · rw [show (List.filter (isActiveFor code) [_]) = [] by simp [List.filter, hact]]
        rw [List.append_nil]
        exact hinv code
    · rw [hfind] at hok
      exact absurd hok (by simp)
  · intro t ht hact
    rcases hfind : q.tasks.find? (isActiveFor stock_code) with _ | existing
    · exact absurd (List.find?_eq_none.mp hfind t ht hact) (by simp)
    · have hex_mem : existing ∈ q.tasks := List.mem_of_find?_eq_some hfind
      have hex_act : isActiveFor stock_code existing = true := List.find?_some hfind
      have hteq : t = existing := by
        refine eq_of_mem_length_le_one (hinv stock_code) ?_ ?_
        · exact List.mem_filter.mpr ⟨ht, hact⟩
        · exact List.mem_filter.mpr ⟨hex_mem, hex_act⟩
      unfold handle_async_analysis TaskQueue.submit_task
      rw [hfind, hteq]

/-- Witness for `submit_task_dedup`: a queue holding one processing task
for `600519` rejects a second submit with 409 carrying `T1`. -/
theorem submit_task_dedup_witness :
    let t : TaskInfo := { task_id := "T1", stock_code := "600519",
                          status := .processing }
    let q : TaskQueue := ⟨[t]⟩
    DedupInvariant q ∧
    (∀ u q', q.submit_task "T2" "600519" none "full" false = .ok (u, q') →
      DedupInvariant q') ∧
    (∀ u ∈ q.tasks, isActiveFor "600519" u = true →
      handle_async_analysis q "T2" "600519" "full" false =
        ((409, .duplicate "duplicate_task" ("股票 600519 已有任务在处理中")
          "600519" u.task_id), q)) := by
  refine ⟨dedup_singleton _, ?_⟩
  exact submit_task_dedup _ "T2" "600519" none "full" false (dedup_singleton _)

/-! #### Consensus reduction -/

/-- Python's `round` fixes integers. -/
theorem pyRound_intCast (k : ℤ) : pyRound (k : ℚ) = k := by
  unfold pyRound
  rw [Int.floor_intCast]
  simp

/-- When every successful score is the constant `k`, the extracted score
list is `k` repeated. -/
theorem filterMap_score_constant (l : List ModelResult) (k : ℤ)
    (h : ∀ r ∈ l, r.score = some k) :
    l.filterMap (fun r => r.score) = List.replicate l.length k := by
  induction l with
  | nil => rfl
  | cons r rest ih =>
    rw [List.filterMap_cons, h r (List.mem_cons_self _ _)]
    rw [List.length_cons, List.replicate_succ]
    rw [ih (fun u hu => h u (List.mem_cons_of_mem _ hu))]

/-- Folding the advice counter over results that all advise `a` starting
from `[(a, m)]` just accumulates the length. -/
theorem adviceCounts_fold_constant (a : String) (ha : a ≠ "") :
    ∀ (l : List ModelResult) (m : Nat), (∀ r ∈ l, r.advice = some a) →
    l.foldl
      (fun m r =>
        match r.advice with
        | some b => if b ≠ "" then incrCount m b else m
        | none => m)
      [(a, m)] = [(a, m + l.length)] := by
  intro l
  induction l with
  | nil => intro m _; simp
  | cons r rest ih =>
    intro m h
    rw [List.foldl_cons, h r (List.mem_cons_self _ _)]
    simp only [ha, if_pos]
    have hstep : incrCount [(a, m)] a = [(a, m + 1)] := by
      simp [incrCount, List.lookup]
    rw [if_pos ha, hstep, ih (m + 1) (fun u hu => h u (List.mem_cons_of_mem _ hu))]
    rw [List.length_cons]
    ring_nf

/-- When all advices equal a non-empty `a`, the counts dict is the
singleton `[(a, n)]`. -/
theorem adviceCounts_constant (l : List ModelResult) (a : String) (ha : a ≠ "")
    (hne : l ≠ []) (h : ∀ r ∈ l, r.advice = some a) :
    adviceCounts l = [(a, l.length)] := by
  match l with
  | [] => exact absurd rfl hne
  | r :: rest =>
    unfold adviceCounts
    rw [List.foldl_cons, h r (List.mem_cons_self _ _)]
    simp only [ha, if_pos]
    have hstep : incrCount [] a = [(a, 1)] := by simp [incrCount, List.lookup]
    rw [if_pos ha, hstep,
      adviceCounts_fold_constant a ha rest 1 (fun u hu => h u (List.mem_cons_of_mem _ hu))]
    rw [List.length_cons]
    ring_nf

/-- The sum of a constant integer list. -/
theorem sum_constant_list (l : List ℤ) (k : ℤ) (h : ∀ x ∈ l, x = k) :
    l.sum = l.length * k := by
  induction l with
  | nil => simp
  | cons x rest ih =>
    rw [List.sum_cons, h x (List.mem_cons_self _ _),
      ih (fun y hy => h y (List.mem_cons_of_mem _ hy))]
    rw [List.length_cons]
    push_cast
    ring

/-- C3: consensus over the successful scored results computes
`round(mean(scores))`; in particular when every successful result scores
`k` and advises `a`, the consensus is `(k, a)`; and when no result
qualifies, the score is absent, the advice is the insufficient-data
value, and the strategy is absent. -/
theorem compute_consensus_spec (results : List ModelResult) (k : ℤ) (a : String)
    (ha : a ≠ "") :
    (results.filter (fun r => r.success && r.score.isSome) = [] →
      (compute_consensus results).score = none ∧
      (compute_consensus results).advice = "数据不足" ∧
      (compute_consensus results).strategy = none) ∧
    (results.filter (fun r => r.success && r.score.isSome) ≠ [] →
      (compute_consensus results).score = some (pyRound
        (((results.filter (fun r => r.success && r.score.isSome)).filterMap
            (fun r => r.score)).sum /
          ((results.filter (fun r => r.success && r.score.isSome)).length : ℚ))) ∧
      ((∀ r ∈ results.filter (fun r => r.success && r.score.isSome),
          r.score = some k ∧ r.advice = some a) →
        (compute_consensus results).score = some k ∧
        (compute_consensus results).advice = a)) := by
  constructor
  · intro hempty
    unfold compute_consensus
    rw [if_pos hempty]
    exact ⟨rfl, rfl, rfl⟩
  · intro hne
    have hscore : (compute_consensus results).score = some (pyRound
        (((results.filter (fun r => r.success && r.score.isSome)).filterMap
            (fun r => r.score)).sum /
          ((results.filter (fun r => r.success && r.score.isSome)).length : ℚ))) := by
      unfold compute_consensus
      rw [if_neg hne]
    refine ⟨hscore, ?_⟩
    intro hall
    set successful := results.filter (fun r => r.success && r.score.isSome) with hsucc
    have hlen_pos : 0 < successful.length := by
      cases hsl : successful with
      | nil => exact absurd hsl hne
      | cons x xs => simp [hsl]
    have hmean : ((((successful.filterMap (fun r => r.score)).sum : ℤ) : ℚ)) /
        (successful.length : ℚ) = (k : ℚ) := by
      rw [filterMap_score_constant successful k (fun r hr => (hall r hr).1)]
      rw [List.sum_replicate]
      rw [nsmul_eq_mul]
      push_cast
      rw [mul_comm, mul_div_assoc]
      rw [div_self (by positivity), mul_one]
    constructor
    · rw [hscore, hmean, pyRound_intCast]
    · have hcounts : adviceCounts successful = [(a, successful.length)] :=
        adviceCounts_constant successful a ha hne (fun r hr => (hall r hr).2)
      unfold compute_consensus
      rw [if_neg hne]
      simp only [← hsucc, hcounts]
      simp [pyMaxByCount]

/-- Witness for `compute_consensus_spec`: two successful experts scoring
72 with advice "买入", plus one failed expert; and the all-failed case via
the same theorem at an all-failed list. -/
theorem compute_consensus_spec_witness :
    let ok1 : ModelResult := { model_name := "m1", success := true,
                               score := some 72, advice := some "买入" }
    let ok2 : ModelResult := { model_name := "m2", success := true,
                               score := some 72, advice := some "买入" }
    let bad : ModelResult := { model_name := "m3", success := false,
                               error := some "timeout" }
    ("买入" : String) ≠ "" ∧
    ([ok1, ok2, bad].filter (fun r => r.success && r.score.isSome) ≠ [] →
      (compute_consensus [ok1, ok2, bad]).score = some (pyRound
        ((([ok1, ok2, bad].filter (fun r => r.success && r.score.isSome)).filterMap
            (fun r => r.score)).sum /
          (([ok1, ok2, bad].filter (fun r => r.success && r.score.isSome)).length : ℚ))) ∧
      ((∀ r ∈ [ok1, ok2, bad].filter (fun r => r.success && r.score.isSome),
          r.score = some 72 ∧ r.advice = some "买入") →
        (compute_consensus [ok1, ok2, bad]).score = some 72 ∧
        (compute_consensus [ok1, ok2, bad]).advice = "买入")) ∧
    ([bad].filter (fun r => r.success && r.score.isSome) = [] →
      (compute_consensus [bad]).score = none ∧
      (compute_consensus [bad]).advice = "数据不足" ∧
      (compute_consensus [bad]).strategy = none) := by
  intro ok1 ok2 bad
  refine ⟨by decide, ?_, ?_⟩
  · exact (compute_consensus_spec [ok1, ok2, bad] 72 "买入" (by decide)).2
  · exact (compute_consensus_spec [bad] 72 "买入" (by decide)).1

/-! #### Endpoint failover accounting -/

/-- Loop invariant of `_run_single_model`'s endpoint loop: the tried list
grows by a contiguous prefix of the remaining endpoints' ids, and on
success the used endpoint sits at the index recorded in
`fallback_count`. -/
theorem run_model_loop_spec (outcome : ModelEndpoint → EndpointOutcome)
    (model : ModelConfig) :
    ∀ (rem : List ModelEndpoint) (tried : List String) (idx : Nat)
      (lastErr : Option String),
    (∃ n ≤ rem.length,
      (run_model_loop outcome model rem tried idx lastErr).endpoint_tried
        = tried ++ (rem.map (fun e => e.id)).take n) ∧
    ((run_model_loop outcome model rem tried idx lastErr).success = true →
      ∃ n, ∃ h : n < rem.length,
        (run_model_loop outcome model rem tried idx lastErr).endpoint_tried
          = tried ++ (rem.map (fun e => e.id)).take (n + 1) ∧
        (run_model_loop outcome model rem tried idx lastErr).endpoint_used
          = some (rem.get ⟨n, h⟩).id ∧
        (run_model_loop outcome model rem tried idx lastErr).fallback_count
          = idx + n) := by
  intro rem
  induction rem with
  | nil =>
    intro tried idx lastErr
    constructor
    · exact ⟨0, Nat.zero_le _, by simp [run_model_loop]⟩
    · intro hsucc
      exact absurd hsucc (by simp [run_model_loop])
  | cons e rest ih =>
    intro tried idx lastErr
    have step_continue : ∀ (lastErr' : Option String),
        (∃ n ≤ (e :: rest).length,
          (run_model_loop outcome model rest (tried ++ [e.id]) (idx + 1) lastErr').endpoint_tried
            = tried ++ ((e :: rest).map (fun e => e.id)).take n) ∧
        ((run_model_loop outcome model rest (tried ++ [e.id]) (idx + 1) lastErr').success = true →
          ∃ n, ∃ h : n < (e :: rest).length,
            (run_model_loop outcome model rest (tried ++ [e.id]) (idx + 1) lastErr').endpoint_tried
              = tried ++ ((e :: rest).map (fun e => e.id)).take (n + 1) ∧
            (run_model_loop outcome model rest (tried ++ [e.id]) (idx + 1) lastErr').endpoint_used
              = some ((e :: rest).get ⟨n, h⟩).id ∧
            (run_model_loop outcome model rest (tried ++ [e.id]) (idx + 1) lastErr').fallback_count
              = idx + n) := by
      intro lastErr'
      obtain ⟨⟨n, hn, htried⟩, hsucc⟩ := ih (tried ++ [e.id]) (idx + 1) lastErr'
      constructor
      · refine ⟨n + 1, Nat.succ_le_succ hn, ?_⟩
        rw [htried, List.map_cons, List.take_succ_cons, List.append_assoc,
          List.singleton_append]
      · intro hs
        obtain ⟨n, h, htried', hused, hfb⟩ := hsucc hs
        refine ⟨n + 1, Nat.succ_lt_succ h, ?_, ?_, ?_⟩
        · rw [htried', List.map_cons, List.take_succ_cons, List.append_assoc,
            List.singleton_append]
        · rw [hused]
          rfl
        · rw [hfb]
          omega
    have step_return : ∀ (res : ModelResult),
        res.endpoint_tried = tried ++ [e.id] →
        (res.success = true →
          res.endpoint_used = some e.id ∧ res.fallback_count = idx) →
        (∃ n ≤ (e :: rest).length,
          res.endpoint_tried = tried ++ ((e :: rest).map (fun e => e.id)).take n) ∧
        (res.success = true →
          ∃ n, ∃ h : n < (e :: rest).length,
            res.endpoint_tried = tried ++ ((e :: rest).map (fun e => e.id)).take (n + 1) ∧
            res.endpoint_used = some ((e :: rest).get ⟨n, h⟩).id ∧
            res.fallback_count = idx + n) := by
      intro res htried hs
      constructor
      · exact ⟨1, by simp, by rw [htried]; rfl⟩
      · intro hsucc
        obtain ⟨hused, hfb⟩ := hs hsucc
        exact ⟨0, Nat.succ_pos _, by rw [htried]; rfl, by rw [hused]; rfl, by omega⟩
    rcases houtcome : outcome e with _ | r | t
    · simp only [run_model_loop, houtcome]
      exact step_continue _
    · simp only [run_model_loop, houtcome]
      by_cases hr : r.success = true
      · rw [if_pos hr]
        exact step_return _ rfl (fun _ => ⟨rfl, rfl⟩)
      · rw [if_neg hr]
        by_cases hsw :
            is_endpoint_switchable_error (pyOr r.error_message "模型返回失败") = true
        · rw [if_pos hsw]
          exact step_continue _
        · rw [if_neg hsw]
          exact step_return _ rfl (fun hcontra => absurd hcontra Bool.false_ne_true)
    · simp only [run_model_loop, houtcome]
      by_cases hsw : is_endpoint_switchable_error (pySlice t 400) = true
      · rw [if_pos hsw]
        exact step_continue _
      · rw [if_neg hsw]
        exact step_return _ rfl (fun hcontra => absurd hcontra Bool.false_ne_true)

/-- C4: `endpoint_tried` is a contiguous prefix of the enabled endpoints
in priority-descending order, and on success `fallback_count` is the
index of `endpoint_used` in that list, i.e. `len(endpoint_tried) - 1`. -/
theorem run_single_model_endpoint_accounting
    (outcome : ModelEndpoint → EndpointOutcome) (model : ModelConfig) :
    (run_single_model outcome model).endpoint_tried
      <+: (activeEndpoints model).map (fun e => e.id) ∧
    ((run_single_model outcome model).success = true →
      (run_single_model outcome model).fallback_count
        = (run_single_model outcome model).endpoint_tried.length - 1 ∧
      ((activeEndpoints model).map (fun e => e.id))[(run_single_model outcome
          model).fallback_count]?
        = (run_single_model outcome model).endpoint_used) := by
  unfold run_single_model
  by_cases hempty : activeEndpoints model = []
  · simp only [hempty, if_true]
    constructor
    · simp
    · intro hcontra
      exact absurd hcontra (by simp)
  · simp only [hempty, if_false]
    obtain ⟨⟨n, hn, htried⟩, hsucc⟩ :=
      run_model_loop_spec outcome model (activeEndpoints model) [] 0 none
    constructor
    · rw [htried, List.nil_append]
      exact List.take_prefix _ _
    · intro hs
      obtain ⟨m, hm, htried', hused, hfb⟩ := hsucc hs
      rw [htried', List.nil_append] at *
      constructor
      · rw [hfb, List.length_take]
        have : m + 1 ≤ ((activeEndpoints model).map (fun e => e.id)).length := by
          rw [List.length_map]; omega
        omega
      · rw [hfb, hused]
        rw [List.getElem?_map, Nat.zero_add]
        rw [List.getElem?_eq_getElem hm]
        rfl

/-- Witness scenario for `run_single_model_endpoint_accounting`: the
spec's failover example — primary endpoint fails with a 503, backup
succeeds — showing the success branch is reachable. -/
theorem run_single_model_endpoint_accounting_witness :
    let primary : ModelEndpoint := { id := "primary", api_key := "k1", priority := 10 }
    let backup : ModelEndpoint := { id := "backup", api_key := "k2", priority := 5 }
    let mc : ModelConfig := { name := "gpt-4o-mini", provider := "openai-compatible",
                              endpoints := [primary, backup] }
    let oc : ModelEndpoint → EndpointOutcome := fun e =>
      if e.id = "primary" then
        .result { success := false, error_message := some "503 service unavailable" }
      else
        .result { success := true, sentiment_score := some 72,
                  operation_advice := some "买入" }
    (run_single_model oc mc).success = true ∧
    ((run_single_model oc mc).endpoint_tried
        <+: (activeEndpoints mc).map (fun e => e.id) ∧
      ((run_single_model oc mc).success = true →
        (run_single_model oc mc).fallback_count
          = (run_single_model oc mc).endpoint_tried.length - 1 ∧
        ((activeEndpoints mc).map (fun e => e.id))[(run_single_model oc
            mc).fallback_count]?
          = (run_single_model oc mc).endpoint_used)) := by
  exact ⟨by decide, run_single_model_endpoint_accounting _ _⟩

/-! #### Endpoint error classification -/

/-- The code's switchable classifier coincides with the spec's marker
list. -/
theorem switchable_eq_spec (t : String) :
    is_endpoint_switchable_error t = spec_is_switchable t := by
  simp only [is_endpoint_switchable_error, spec_is_switchable,
    spec_switchable_markers, List.any_cons, List.any_nil, Bool.or_false,
    Bool.or_assoc]

/-- C5 counterexample: an analyzer that reports unavailable (bad API key,
init failure) produces the error text `分析器初始化失败或 API Key 无效`,
which carries none of the switchable markers — yet the loop moves on to
the next endpoint and the model succeeds there, instead of failing
immediately as the claim requires for every non-switchable error. -/
theorem endpoint_unavailable_not_terminal :
    let primary : ModelEndpoint := { id := "primary", api_key := "k1", priority := 10 }
    let backup : ModelEndpoint := { id := "backup", api_key := "k2", priority := 5 }
    let mc : ModelConfig := { name := "gpt-4o-mini", provider := "openai-compatible",
                              endpoints := [primary, backup] }
    let oc : ModelEndpoint → EndpointOutcome := fun e =>
      if e.id = "primary" then .unavailable
      else .result { success := true, sentiment_score := some 72 }
    spec_is_switchable "分析器初始化失败或 API Key 无效" = false ∧
    (run_single_model oc mc).success = true ∧
    (run_single_model oc mc).endpoint_tried = ["primary", "backup"] := by
  refine ⟨by decide, by decide, by decide⟩

/-- C5 (amended): for endpoint failures arising from the analyze call —
a failed result or a raised exception — the error is classified
switchable exactly by the spec's marker list (401/403/429,
500/502/503/504, timeout, connection/network/SSL substrings of the
lowered text); a switchable error moves to the next endpoint, any other
such error is terminal and returns a failed ModelResult at once, with the
remaining endpoints untouched; an unavailable analyzer is always skipped
to the next endpoint without classification. -/
theorem endpoint_error_terminal_classification :
    (∀ t : String, is_endpoint_switchable_error t = spec_is_switchable t) ∧
    (∀ (outcome : ModelEndpoint → EndpointOutcome) (model : ModelConfig)
        (e : ModelEndpoint) (rest : List ModelEndpoint) (tried : List String)
        (idx : Nat) (lastErr : Option String) (ar : AnalyzerResult),
      outcome e = .result ar → ar.success = false →
      (spec_is_switchable (pyOr ar.error_message "模型返回失败") = false →
        run_model_loop outcome model (e :: rest) tried idx lastErr =
          { model_name := model.name, success := false,
            error := some (pySlice (pyOr ar.error_message "模型返回失败") 200),
            endpoint_tried := tried ++ [e.id], endpoint_used := some e.id,
            fallback_count := idx }) ∧
      (spec_is_switchable (pyOr ar.error_message "模型返回失败") = true →
        run_model_loop outcome model (e :: rest) tried idx lastErr =
          run_model_loop outcome model rest (tried ++ [e.id]) (idx + 1)
            (some (pyOr ar.error_message "模型返回失败")))) ∧
    (∀ (outcome : ModelEndpoint → EndpointOutcome) (model : ModelConfig)
        (e : ModelEndpoint) (rest : List ModelEndpoint) (tried : List String)
        (idx : Nat) (lastErr : Option String) (t : String),
      outcome e = .exn t →
      (spec_is_switchable (pySlice t 400) = false →
        run_model_loop outcome model (e :: rest) tried idx lastErr =
          { model_name := model.name, success := false,
            error := some (pySlice (pySlice t 400) 200),
            endpoint_tried := tried ++ [e.id], endpoint_used := some e.id,
            fallback_count := idx }) ∧
      (spec_is_switchable (pySlice t 400) = true →
        run_model_loop outcome model (e :: rest) tried idx lastErr =
          run_model_loop outcome model rest (tried ++ [e.id]) (idx + 1)
            (some (pySlice t 400)))) ∧
    (∀ (outcome : ModelEndpoint → EndpointOutcome) (model : ModelConfig)
        (e : ModelEndpoint) (rest : List ModelEndpoint) (tried : List String)
        (idx : Nat) (lastErr : Option String),
      outcome e = .unavailable →
      run_model_loop outcome model (e :: rest) tried idx lastErr =
        run_model_loop outcome model rest (tried ++ [e.id]) (idx + 1)
          (some "分析器初始化失败或 API Key 无效")) := by
  refine ⟨switchable_eq_spec, ?_, ?_, ?_⟩
  · intro outcome model e rest tried idx lastErr ar hout hsucc
    constructor
    · intro hspec
      have hsw : ¬ is_endpoint_switchable_error
          (pyOr ar.error_message "模型返回失败") = true := by
        rw [switchable_eq_spec, hspec]
        exact Bool.false_ne_true
      simp only [run_model_loop, hout]
      rw [if_neg (by rw [hsucc]; exact Bool.false_ne_true)]
      rw [if_neg hsw]
    · intro hspec
      have hsw : is_endpoint_switchable_error
          (pyOr ar.error_message "模型返回失败") = true := by
        rw [switchable_eq_spec]
        exact hspec
      simp only [run_model_loop, hout]
      rw [if_neg (by rw [hsucc]; exact Bool.false_ne_true)]
      rw [if_pos hsw]
  · intro outcome model e rest tried idx lastErr t hout
    constructor
    · intro hspec
      have hsw : ¬ is_endpoint_switchable_error (pySlice t 400) = true := by
        rw [switchable_eq_spec, hspec]
        exact Bool.false_ne_true
      simp only [run_model_loop, hout]
      rw [if_neg hsw]
    · intro hspec
      have hsw : is_endpoint_switchable_error (pySlice t 400) = true := by
        rw [switchable_eq_spec]
        exact hspec
      simp only [run_model_loop, hout]
      rw [if_pos hsw]
  · intro outcome model e rest tried idx lastErr hout
    simp only [run_model_loop, hout]

/-- Witness for `endpoint_error_terminal_classification`: an
"invalid request" failure on the first of two endpoints is terminal,
a raised "quota exceeded" exception likewise, and a "503 service
unavailable" failure moves to the next endpoint. -/
theorem endpoint_error_terminal_classification_witness :
    let e1 : ModelEndpoint := { id := "primary", api_key := "k1", priority := 10 }
    let e2 : ModelEndpoint := { id := "backup", api_key := "k2", priority := 5 }
    let mc : ModelConfig := { name := "gpt-4o-mini", provider := "openai-compatible" }
    let ar : AnalyzerResult := { success := false,
                                 error_message := some "invalid request body" }
    let ar5 : AnalyzerResult := { success := false,
                                  error_message := some "503 service unavailable" }
    let oc1 : ModelEndpoint → EndpointOutcome := fun _ => .result ar
    let oc2 : ModelEndpoint → EndpointOutcome := fun _ => .exn "quota exceeded"
    let oc3 : ModelEndpoint → EndpointOutcome := fun _ => .result ar5
    (oc1 e1 = .result ar ∧ ar.success = false ∧
      spec_is_switchable (pyOr ar.error_message "模型返回失败") = false ∧
      run_model_loop oc1 mc [e1, e2] [] 0 none =
        { model_name := mc.name, success := false,
          error := some (pySlice (pyOr ar.error_message "模型返回失败") 200),
          endpoint_tried := [e1.id], endpoint_used := some e1.id,
          fallback_count := 0 }) ∧
    (oc2 e1 = .exn "quota exceeded" ∧
      spec_is_switchable (pySlice "quota exceeded" 400) = false ∧
      run_model_loop oc2 mc [e1, e2] [] 0 none =
        { model_name := mc.name, success := false,
          error := some (pySlice (pySlice "quota exceeded" 400) 200),
          endpoint_tried := [e1.id], endpoint_used := some e1.id,
          fallback_count := 0 }) ∧
    (oc3 e1 = .result ar5 ∧ ar5.success = false ∧
      spec_is_switchable (pyOr ar5.error_message "模型返回失败") = true ∧
      run_model_loop oc3 mc [e1, e2] [] 0 none =
        run_model_loop oc3 mc [e2] [e1.id] 1
          (some (pyOr ar5.error_message "模型返回失败"))) := by
  refine ⟨⟨rfl, rfl, by decide, ?_⟩, ⟨rfl, by decide, ?_⟩, ⟨rfl, rfl, by decide, ?_⟩⟩
  · exact (endpoint_error_terminal_classification.2.1 _ _ _ [_] [] 0 none _ rfl
      rfl).1 (by decide)
  · exact (endpoint_error_terminal_classification.2.2.1 _ _ _ [_] [] 0 none _
      rfl).1 (by decide)
  · exact (endpoint_error_terminal_classification.2.1 _ _ _ [_] [] 0 none _ rfl
      rfl).2 (by decide)

/-- C9: Market classification of the spec's boundary examples under the
dispatch order US, then HK, then ETF, then A-share. -/
theorem classifyMarket_boundary_examples :
    classifyMarket "600519" = .ashare ∧
    classifyMarket "00700" = .hk ∧
    classifyMarket "HK00700" = .hk ∧
    classifyMarket "AAPL" = .us ∧
    classifyMarket "BRK.B" = .us ∧
    classifyMarket "512400" = .etf := by
  refine ⟨?_, ?_, ?_, ?_, ?_, ?_⟩ <;> decide

/-- C7: with a resource in OPEN state, `is_available` returns false while
the cooldown has not elapsed, and otherwise moves the resource to
HALF_OPEN and returns true. -/
theorem circuitBreaker_open_is_available (b : CircuitBreaker) (source : String)
    (now : ℚ) (h : (b.getState source).state = .open) :
    (now - (b.getState source).last_failure_time < b.cooldown_seconds →
      (b.is_available source now).1 = false) ∧
    (b.cooldown_seconds ≤ now - (b.getState source).last_failure_time →
      (b.is_available source now).1 = true ∧
      ((b.is_available source now).2.getState source).state = .halfOpen) := by
  constructor
  · intro hlt
    simp only [CircuitBreaker.is_available, h]
    rw [if_neg (by exact not_le.mpr hlt)]
  · intro hge
    simp only [CircuitBreaker.is_available, h]
    rw [if_pos hge]
    refine ⟨rfl, ?_⟩
    simp [CircuitBreaker.getState, CircuitBreaker.setState, List.lookup]

/-- Witness for `circuitBreaker_open_is_available` at a concrete breaker. -/
theorem circuitBreaker_open_is_available_witness :
    let b : CircuitBreaker :=
      { failure_threshold := 3, cooldown_seconds := 300, half_open_max_calls := 1,
        states := [("akshare", { state := .open, failures := 3,
                                 last_failure_time := 1000, half_open_calls := 0 })] }
    (b.getState "akshare").state = .open ∧
    ((1100 : ℚ) - (b.getState "akshare").last_failure_time < b.cooldown_seconds →
      (b.is_available "akshare" 1100).1 = false) ∧
    (b.cooldown_seconds ≤ (1100 : ℚ) - (b.getState "akshare").last_failure_time →
      (b.is_available "akshare" 1100).1 = true ∧
      ((b.is_available "akshare" 1100).2.getState "akshare").state = .halfOpen) := by
  exact ⟨by decide, circuitBreaker_open_is_available _ "akshare" 1100 (by decide)⟩

/-- C8 counterexample: in CLOSED with failure counter 2, `record_success`
resets the counter to 0, not to 2 − 1 = 1 as the claim states. -/
theorem record_success_not_decrement :
    let b : CircuitBreaker :=
      { failure_threshold := 3, cooldown_seconds := 300, half_open_max_calls := 1,
        states := [("akshare", { state := .closed, failures := 2,
                                 last_failure_time := 1000, half_open_calls := 0 })] }
    (b.getState "akshare").state = .closed ∧ (b.getState "akshare").failures = 2 ∧
    ¬ ((b.record_success "akshare").getState "akshare").failures = 2 - 1 := by
  refine ⟨by decide, by decide, by decide⟩

/-- C8 (amended): recording a success on a resource in state CLOSED resets
the failure counter to 0, and the state remains CLOSED. -/
theorem record_success_resets_counter (b : CircuitBreaker) (source : String)
    (_h : (b.getState source).state = .closed) :
    ((b.record_success source).getState source).failures = 0 ∧
    ((b.record_success source).getState source).state = .closed := by
  simp [CircuitBreaker.record_success, CircuitBreaker.getState,
    CircuitBreaker.setState, List.lookup]

/-- Witness for `record_success_resets_counter` at a concrete breaker. -/
theorem record_success_resets_counter_witness :
    let b : CircuitBreaker :=
      { failure_threshold := 3, cooldown_seconds := 300, half_open_max_calls := 1,
        states := [("tushare", { state := .closed, failures := 2,
                                 last_failure_time := 5, half_open_calls := 0 })] }
    (b.getState "tushare").state = .closed ∧
    ((b.record_success "tushare").getState "tushare").failures = 0 ∧
    ((b.record_success "tushare").getState "tushare").state = .closed := by
  exact ⟨by decide, record_success_resets_counter _ "tushare" (by decide)⟩

end StockAnalysis
